import Mathlib

/-!
Verification of the Crosshair token service (`src/api.py`) against its
natural-language specification.

The service is a single FastAPI module backed by one sqlite table
`tokens(token PRIMARY KEY, hwid, expires_at REAL, revoked INTEGER)`.
We shallow-embed it as pure Lean functions:

* the table is an association list `Store := List (String × TokenRow)`
  keyed by the token string (the primary key guarantees at most one row
  per key; `dbLookup` mirrors `SELECT ... WHERE token = ? ... fetchone()`
  by taking the first match, `dbUpdateHwid`/`dbRevoke` mirror
  `UPDATE ... WHERE token = ?` by rewriting every matching row, and
  `dbInsert` mirrors `INSERT` including the primary-key violation that
  sqlite raises on a duplicate key);
* wall-clock time (`time.time()`) is an explicit `now : Int` parameter
  (each handler reads the clock at most once);
* the random bytes behind `secrets.token_hex(12)` are an explicit
  `bytes : List Nat` parameter;
* `raise HTTPException(...)` becomes `Except.error` of an `ApiError`
  carrying the handler's status code and detail string;
* sqlite stores `expires_at` as REAL and Python truthiness makes both
  `None` and `0.0` falsy; we model the column as `Option Int` and
  translate `if expires_at:` as "is some value different from 0".
-/

/-- One row of the `tokens` table.  `revoked` is stored as INTEGER 0/1 by
the handlers; we model it as `Bool`. -/
structure TokenRow where
  hwid : Option String
  expires_at : Option Int
  revoked : Bool
deriving DecidableEq, Repr

def TokenRow.withHwid (r : TokenRow) (h : Option String) : TokenRow :=
  ⟨h, r.expires_at, r.revoked⟩

def TokenRow.withRevoked (r : TokenRow) (b : Bool) : TokenRow :=
  ⟨r.hwid, r.expires_at, b⟩

/-- The `tokens` table: rows in insertion order, keyed by the token
string (primary key). -/
abbrev Store : Type := List (String × TokenRow)

/-- `SELECT ... FROM tokens WHERE token = ?` followed by `fetchone()`:
the first row whose key matches. -/
def dbLookup (s : Store) (t : String) : Option TokenRow :=
  match s with
  | [] => none
  | (k, r) :: rest => if k = t then some r else dbLookup rest t

/-- `UPDATE tokens SET hwid = ? WHERE token = ?`. -/
def dbUpdateHwid (s : Store) (t : String) (h : Option String) : Store :=
  match s with
  | [] => []
  | (k, r) :: rest =>
      (k, if k = t then r.withHwid h else r) :: dbUpdateHwid rest t h

/-- `UPDATE tokens SET revoked = 1 WHERE token = ?`. -/
def dbRevoke (s : Store) (t : String) : Store :=
  match s with
  | [] => []
  | (k, r) :: rest =>
      (k, if k = t then r.withRevoked true else r) :: dbRevoke rest t

/-- `INSERT INTO tokens ...`: appends a fresh row; a duplicate primary
key makes sqlite raise `IntegrityError`, modelled as `none`. -/
def dbInsert (s : Store) (t : String) (r : TokenRow) : Option Store :=
  match dbLookup s t with
  | some _ => none
  | none => some (s ++ [(t, r)])

/-- The errors the handlers raise, one constructor per
`HTTPException` site (plus the sqlite primary-key violation that an
unlucky `INSERT` in `generate` would surface as an unhandled
exception). -/
inductive ApiError where
  | invalidToken
  | tokenRevoked
  | tokenExpired
  | hwidMismatch
  | invalidPlan
  | tokenNotFound
  | unauthorized
  | integrityError
deriving DecidableEq, Repr

/-- Decidable equality for handler results, so that concrete runs can
be checked by `decide`. -/
instance {e a : Type} [DecidableEq e] [DecidableEq a] :
    DecidableEq (Except e a)
  | Except.error x, Except.error y =>
      if h : x = y then isTrue (by rw [h])
      else isFalse (fun hc => h (Except.error.inj hc))
  | Except.error _, Except.ok _ =>
      isFalse (fun hc => Except.noConfusion hc)
  | Except.ok _, Except.error _ =>
      isFalse (fun hc => Except.noConfusion hc)
  | Except.ok x, Except.ok y =>
      if h : x = y then isTrue (by rw [h])
      else isFalse (fun hc => h (Except.ok.inj hc))

/-- HTTP status code of each raised error, read off the
`HTTPException(status_code=...)` calls (500 for the unhandled
`IntegrityError`). -/
def statusCode : ApiError → Nat
  | .invalidToken => 401
  | .tokenRevoked => 403
  | .tokenExpired => 403
  | .hwidMismatch => 403
  | .invalidPlan => 400
  | .tokenNotFound => 404
  | .unauthorized => 401
  | .integrityError => 500

/-- `PLAN_DURATIONS`, in source order, durations written as in the
source (`days * 86400`); `none` is Python's `None` for `infinite`. -/
def PLAN_DURATIONS : List (String × Option Int) :=
  [ ("1d", some (1 * 86400)),
    ("3d", some (3 * 86400)),
    ("1w", some (7 * 86400)),
    ("2w", some (14 * 86400)),
    ("3w", some (21 * 86400)),
    ("6w", some (42 * 86400)),
    ("1m", some (30 * 86400)),
    ("2m", some (60 * 86400)),
    ("3m", some (90 * 86400)),
    ("6m", some (180 * 86400)),
    ("9m", some (270 * 86400)),
    ("1y", some (365 * 86400)),
    ("2y", some (730 * 86400)),
    ("infinite", none) ]

/-- `plan in PLAN_DURATIONS` / `PLAN_DURATIONS[plan]`. -/
def lookupPlan (p : String) : Option (Option Int) :=
  match PLAN_DURATIONS.find? (fun q => q.1 = p) with
  | some q => some q.2
  | none => none

/-- `', '.join(PLAN_DURATIONS.keys())` — dict keys in insertion
order. -/
def planKeysJoined : String :=
  String.intercalate ", " (PLAN_DURATIONS.map Prod.fst)

/-- The detail string of each raised `HTTPException`. -/
def errorDetail : ApiError → String
  | .invalidToken => "Invalid token"
  | .tokenRevoked => "Token revoked"
  | .tokenExpired => "Token expired"
  | .hwidMismatch => "HWID mismatch"
  | .invalidPlan => "Invalid plan. Valid plans: " ++ planKeysJoined
  | .tokenNotFound => "Token not found"
  | .unauthorized => "Unauthorized"
  | .integrityError => "IntegrityError"

/-- The module-level fallback from line 10 of the source:
`ADMIN_KEY = os.getenv("ADMIN_KEY", "olly6969")`. -/
def ADMIN_KEY_DEFAULT : String := "olly6969"

/-- `require_admin`: `env` is `os.environ.get("ADMIN_KEY")` (note: no
default argument here, unlike the module-level constant), `header` is
the `X-Admin-Key` header (`None` when absent).  Python compares
`str | None` values with `!=`. -/
def require_admin (env : Option String) (header : Option String) :
    Except ApiError Unit :=
  if header ≠ env then Except.error ApiError.unauthorized
  else Except.ok ()

/-- The success body `{"status": ...}` of `verify`, `admin_unbind` and
`admin_revoke`. -/
structure StatusResponse where
  status : String
deriving DecidableEq, Repr

/-- `if expires_at and time.time() > expires_at:` — the REAL column is
falsy when NULL or 0. -/
def expiryTruthy (e : Option Int) (now : Int) : Bool :=
  match e with
  | none => false
  | some v => decide (v ≠ 0) && decide (now > v)

/-- `POST /verify`: look the token up, check revocation, truthy-expiry
and hwid binding in source order; on a NULL hwid persist the supplied
one. -/
def verify (s : Store) (token hwid : String) (now : Int) :
    Except ApiError (Store × StatusResponse) :=
  match dbLookup s token with
  | none => Except.error ApiError.invalidToken
  | some row =>
      if row.revoked then Except.error ApiError.tokenRevoked
      else if expiryTruthy row.expires_at now then
        Except.error ApiError.tokenExpired
      else
        match row.hwid with
        | none =>
            Except.ok (dbUpdateHwid s token (some hwid), ⟨"ok"⟩)
        | some bound =>
            if bound ≠ hwid then Except.error ApiError.hwidMismatch
            else Except.ok (s, ⟨"ok"⟩)

/-- Lowercase hex digit `n` (`n < 16`), as produced by
`secrets.token_hex`. -/
def hexDigitLower (n : Nat) : Char :=
  "0123456789abcdef".data.getD n 'x'

/-- One byte rendered as two lowercase hex digits, high nibble first. -/
def byteToHexLower (b : Nat) : List Char :=
  [hexDigitLower (b / 16), hexDigitLower (b % 16)]

/-- `secrets.token_hex(12).upper()` applied to the 12 random bytes:
lowercase hex of every byte, then `str.upper()` characterwise. -/
def tokenHexUpper (bytes : List Nat) : String :=
  ⟨(bytes.flatMap byteToHexLower).map Char.toUpper⟩

/-- `data.plan.lower()` (the plan keys are ASCII). -/
def strLower (s : String) : String :=
  ⟨s.data.map Char.toLower⟩

/-- The success body of `generate`. -/
structure GenResponse where
  token : String
  plan : String
  expires_at : Option Int
deriving DecidableEq, Repr

/-- `POST /generate`: lowercase the plan, reject unknown plans, build
the token string from 12 random bytes, compute the expiry and insert
the row (`hwid` is not in the INSERT column list, so it is NULL;
`revoked` is inserted as 0). -/
def generate (s : Store) (plan : String) (bytes : List Nat) (now : Int) :
    Except ApiError (Store × GenResponse) :=
  match lookupPlan (strLower plan) with
  | none => Except.error ApiError.invalidPlan
  | some duration =>
      match dbInsert s ("OLLY-" ++ tokenHexUpper bytes)
          ⟨none, duration.map (fun d => now + d), false⟩ with
      | none => Except.error ApiError.integrityError
      | some s2 =>
          Except.ok (s2, ⟨"OLLY-" ++ tokenHexUpper bytes, strLower plan,
            duration.map (fun d => now + d)⟩)

/-- The success body of `admin_verify`. -/
structure InspectResponse where
  token : String
  hwid : Option String
  revoked : Bool
  expires_at : Option Int
  seconds_remaining : Option Int
deriving DecidableEq, Repr

/-- `POST /admin/verify` (after `require_admin`): read-only lookup;
`seconds_remaining` is computed only under `if expires_at:`, so a NULL
or 0 expiry leaves it None. -/
def admin_verify (s : Store) (t : String) (now : Int) :
    Except ApiError (Store × InspectResponse) :=
  match dbLookup s t with
  | none => Except.error ApiError.tokenNotFound
  | some row =>
      let seconds_remaining : Option Int :=
        match row.expires_at with
        | none => none
        | some e => if e ≠ 0 then some (max 0 (e - now)) else none
      Except.ok (s, ⟨t, row.hwid, row.revoked, row.expires_at,
        seconds_remaining⟩)

/-- `POST /admin/unbind` (after `require_admin`): unconditional
`UPDATE tokens SET hwid = NULL WHERE token = ?`, no existence check,
always `{"status": "ok"}`. -/
def admin_unbind (s : Store) (t : String) :
    Except ApiError (Store × StatusResponse) :=
  Except.ok (dbUpdateHwid s t none, ⟨"ok"⟩)

/-- `POST /admin/revoke` (after `require_admin`): unconditional
`UPDATE tokens SET revoked = 1 WHERE token = ?`, no existence check,
always `{"status": "revoked"}`. -/
def admin_revoke (s : Store) (t : String) :
    Except ApiError (Store × StatusResponse) :=
  Except.ok (dbRevoke s t, ⟨"revoked"⟩)

/-- One invocation of an exposed endpoint, with its request-body
inputs (the clock reading is supplied alongside in `stepStore`). -/
inductive Op where
  | opGenerate (plan : String) (bytes : List Nat)
  | opVerify (token hwid : String)
  | opInspect (token : String)
  | opUnbind (token : String)
  | opRevoke (token : String)
deriving DecidableEq, Repr

/-- The store after one request: a handler that raises leaves the table
as it was (every `raise` in the source happens before any write). -/
def stepStore (s : Store) (now : Int) : Op → Store
  | .opGenerate plan bytes =>
      match generate s plan bytes now with
      | .ok (s2, _) => s2
      | .error _ => s
  | .opVerify t h =>
      match verify s t h now with
      | .ok (s2, _) => s2
      | .error _ => s
  | .opInspect t =>
      match admin_verify s t now with
      | .ok (s2, _) => s2
      | .error _ => s
  | .opUnbind t =>
      match admin_unbind s t with
      | .ok (s2, _) => s2
      | .error _ => s
  | .opRevoke t =>
      match admin_revoke s t with
      | .ok (s2, _) => s2
      | .error _ => s

/-- The store after a sequence of requests, each with its own clock
reading. -/
def runOps (s : Store) (ops : List (Int × Op)) : Store :=
  match ops with
  | [] => s
  | p :: rest => runOps (stepStore s p.1 p.2) rest

/-- Decidable substring test: `sub` occurs contiguously in `s`. -/
def strContainsSub (s sub : String) : Bool :=
  (List.range (s.data.length + 1)).any
    (fun i => (s.data.drop i).take sub.data.length == sub.data)

/-- The uppercase hexadecimal alphabet. -/
def upperHexChars : List Char := "0123456789ABCDEF".data

/-- The spec's notion of an expired record: `expires_at` is non-null
and strictly in the past. -/
def specExpired (r : TokenRow) (now : Int) : Prop :=
  ∃ e, r.expires_at = some e ∧ now > e

/-- Claim C3 as stated: for every configuration of the secret,
authentication succeeds exactly when the header is present and equals
the configured value. -/
def claimAdminAuthExact : Prop :=
  ∀ env header : Option String,
    require_admin env header = Except.ok () ↔
      ∃ k, env = some k ∧ header = some k

/-- Claim C6 as stated: on an existing non-revoked record, `verify`
fails with TokenExpired exactly when `expires_at` is non-null and
strictly in the past. -/
def claimExpiryExact : Prop :=
  ∀ (s : Store) (t h : String) (now : Int) (r : TokenRow),
    dbLookup s t = some r → r.revoked = false →
      (verify s t h now = Except.error ApiError.tokenExpired ↔
        specExpired r now)

/-- Claim C8 as stated: `admin_verify` reports `seconds_remaining` as
`max 0 (expires_at - now)` whenever `expires_at` is non-null. -/
def claimInspectExact : Prop :=
  (∀ (s : Store) (t : String) (now : Int),
    dbLookup s t = none →
      admin_verify s t now = Except.error ApiError.tokenNotFound) ∧
  (∀ (s : Store) (t : String) (now : Int) (r : TokenRow),
    dbLookup s t = some r →
      admin_verify s t now = Except.ok (s,
        ⟨t, r.hwid, r.revoked, r.expires_at,
          r.expires_at.map (fun e => max 0 (e - now))⟩))

/-- Claim C10 as stated: keys are append-only, `revoked` is monotone,
and `hwid` changes only through first-use binding on a live
(existing, non-revoked, non-expired in the spec's sense) token or
through admin unbind. -/
def claimStateInvariants : Prop :=
  (∀ (s : Store) (ops : List (Int × Op)),
    ∃ tl, (runOps s ops).map Prod.fst = s.map Prod.fst ++ tl) ∧
  (∀ (s : Store) (ops : List (Int × Op)) (t : String) (r : TokenRow),
    dbLookup s t = some r →
      ∃ r', dbLookup (runOps s ops) t = some r' ∧
        (r.revoked = true → r'.revoked = true)) ∧
  (∀ (s : Store) (now : Int) (op : Op) (t : String) (r r' : TokenRow),
    dbLookup s t = some r → dbLookup (stepStore s now op) t = some r' →
      r'.hwid ≠ r.hwid →
        (∃ h, op = Op.opVerify t h ∧ r.hwid = none ∧ r'.hwid = some h ∧
          r.revoked = false ∧ ¬ specExpired r now) ∨
        (op = Op.opUnbind t ∧ r'.hwid = none))

theorem dbLookup_append_left {s : Store} {t : String} {r : TokenRow}
    (h : dbLookup s t = some r) (l : Store) :
    dbLookup (s ++ l) t = some r := by
  induction s with
  | nil => simp [dbLookup] at h
  | cons p rest ih =>
      obtain ⟨k, row⟩ := p
      by_cases hk : k = t
      · simp [dbLookup, hk] at h ⊢
        exact h
      · simp [dbLookup, hk] at h ⊢
        exact ih h

theorem dbLookup_dbUpdateHwid (s : Store) (t u : String)
    (h : Option String) :
    dbLookup (dbUpdateHwid s t h) u =
      if u = t then (dbLookup s u).map (fun r => r.withHwid h)
      else dbLookup s u := by
  induction s with
  | nil => simp [dbLookup, dbUpdateHwid]
  | cons p rest ih =>
      obtain ⟨k, row⟩ := p
      by_cases hk : k = u
      · by_cases hu : u = t
        · simp [dbLookup, dbUpdateHwid, hk, hu]
        · have : ¬ k = t := by
            rw [hk]; exact hu
          simp [dbLookup, dbUpdateHwid, hk, hu, this]
      · simp [dbLookup, dbUpdateHwid, hk, ih]

theorem dbLookup_dbRevoke (s : Store) (t u : String) :
    dbLookup (dbRevoke s t) u =
      if u = t then (dbLookup s u).map (fun r => r.withRevoked true)
      else dbLookup s u := by
  induction s with
  | nil => simp [dbLookup, dbRevoke]
  | cons p rest ih =>
      obtain ⟨k, row⟩ := p
      by_cases hk : k = u
      · by_cases hu : u = t
        · simp [dbLookup, dbRevoke, hk, hu]
        · have : ¬ k = t := by
            rw [hk]; exact hu
          simp [dbLookup, dbRevoke, hk, hu, this]
      · simp [dbLookup, dbRevoke, hk, ih]

theorem map_fst_dbUpdateHwid (s : Store) (t : String)
    (h : Option String) :
    (dbUpdateHwid s t h).map Prod.fst = s.map Prod.fst := by
  induction s with
  | nil => rfl
  | cons p rest ih =>
      obtain ⟨k, row⟩ := p
      simp [dbUpdateHwid, ih]

theorem map_fst_dbRevoke (s : Store) (t : String) :
    (dbRevoke s t).map Prod.fst = s.map Prod.fst := by
  induction s with
  | nil => rfl
  | cons p rest ih =>
      obtain ⟨k, row⟩ := p
      simp [dbRevoke, ih]

theorem dbUpdateHwid_idem (s : Store) (t : String) (h : Option String) :
    dbUpdateHwid (dbUpdateHwid s t h) t h = dbUpdateHwid s t h := by
  induction s with
  | nil => rfl
  | cons p rest ih =>
      obtain ⟨k, row⟩ := p
      by_cases hk : k = t
      · simp [dbUpdateHwid, hk, ih, TokenRow.withHwid]
      · simp [dbUpdateHwid, hk, ih]

theorem dbRevoke_idem (s : Store) (t : String) :
    dbRevoke (dbRevoke s t) t = dbRevoke s t := by
  induction s with
  | nil => rfl
  | cons p rest ih =>
      obtain ⟨k, row⟩ := p
      by_cases hk : k = t
      · simp [dbRevoke, hk, ih, TokenRow.withRevoked]
      · simp [dbRevoke, hk, ih]

theorem expiryTruthy_true_iff (e : Option Int) (now : Int) :
    expiryTruthy e now = true ↔ ∃ v, e = some v ∧ v ≠ 0 ∧ now > v := by
  cases e with
  | none => simp [expiryTruthy]
  | some v => simp [expiryTruthy]

theorem expiryTruthy_false_of_le {e : Option Int} {now : Int}
    (h : e = none ∨ ∃ v, e = some v ∧ now ≤ v) :
    expiryTruthy e now = false := by
  rcases h with h | ⟨v, hv, hle⟩
  · rw [h]; rfl
  · rw [hv]
    simp [expiryTruthy]
    intro _
    exact hle

theorem verify_ok_inv {s : Store} {t h : String} {now : Int}
    {s2 : Store} {resp : StatusResponse}
    (hv : verify s t h now = Except.ok (s2, resp)) :
    ∃ row, dbLookup s t = some row ∧ row.revoked = false ∧
      expiryTruthy row.expires_at now = false ∧
      ((row.hwid = none ∧ s2 = dbUpdateHwid s t (some h)) ∨
       (row.hwid = some h ∧ s2 = s)) := by
  unfold verify at hv
  split at hv
  · exact absurd hv (by simp)
  next row hrow =>
    split at hv
    · exact absurd hv (by simp)
    next hrev =>
      split at hv
      · exact absurd hv (by simp)
      next hexp =>
        split at hv
        next hhw =>
          refine ⟨row, hrow, by simpa using hrev, by simpa using hexp,
            Or.inl ⟨hhw, ?_⟩⟩
          injection hv with hv2
          injection hv2 with hs _
          exact hs.symm
        next bound hhw =>
          split at hv
          · exact absurd hv (by simp)
          next hbh =>
            have hbh2 : bound = h := by
              by_contra hne
              exact hbh hne
            refine ⟨row, hrow, by simpa using hrev, by simpa using hexp,
              Or.inr ⟨by rw [hhw, hbh2], ?_⟩⟩
            injection hv with hv2
            injection hv2 with hs _
            exact hs.symm

theorem generate_ok_inv {s : Store} {plan : String} {bytes : List Nat}
    {now : Int} {s2 : Store} {resp : GenResponse}
    (hg : generate s plan bytes now = Except.ok (s2, resp)) :
    ∃ d, lookupPlan (strLower plan) = some d ∧
      s2 = s ++ [("OLLY-" ++ tokenHexUpper bytes,
        ⟨none, d.map (fun x => now + x), false⟩)] := by
  unfold generate at hg
  split at hg
  · exact absurd hg (by simp)
  next d hd =>
    split at hg
    · exact absurd hg (by simp)
    next s3 hins =>
      refine ⟨d, hd, ?_⟩
      unfold dbInsert at hins
      split at hins
      · exact absurd hins (by simp)
      · injection hins with hins2
        injection hg with hg2
        injection hg2 with hs _
        rw [← hs, ← hins2]

theorem admin_verify_ok_inv {s : Store} {t : String} {now : Int}
    {s2 : Store} {resp : InspectResponse}
    (ha : admin_verify s t now = Except.ok (s2, resp)) : s2 = s := by
  unfold admin_verify at ha
  split at ha
  · exact absurd ha (by simp)
  · injection ha with ha2
    injection ha2 with hs _
    exact hs.symm

theorem hexDigit_upper_mem :
    ∀ n, n < 16 → Char.toUpper (hexDigitLower n) ∈ upperHexChars := by
  decide

theorem byteToHexLower_upper_mem {b : Nat} (hb : b < 256) :
    ∀ c ∈ (byteToHexLower b).map Char.toUpper, c ∈ upperHexChars := by
  intro c hc
  have h1 : b / 16 < 16 := by omega
  have h2 : b % 16 < 16 := Nat.mod_lt _ (by norm_num)
  simp [byteToHexLower] at hc
  rcases hc with hc | hc
  · rw [hc]
    exact hexDigit_upper_mem _ h1
  · rw [hc]
    exact hexDigit_upper_mem _ h2

theorem length_tokenHexUpper {bytes : List Nat} :
    (tokenHexUpper bytes).length = 2 * bytes.length := by
  unfold tokenHexUpper
  show ((bytes.flatMap byteToHexLower).map Char.toUpper).length =
    2 * bytes.length
  rw [List.length_map]
  induction bytes with
  | nil => rfl
  | cons b rest ih =>
      simp [List.flatMap_cons, byteToHexLower] at ih ⊢
      omega

theorem mem_tokenHexUpper {bytes : List Nat}
    (hb : ∀ b ∈ bytes, b < 256) :
    ∀ c ∈ (tokenHexUpper bytes).data, c ∈ upperHexChars := by
  intro c hc
  unfold tokenHexUpper at hc
  simp at hc
  obtain ⟨a, ⟨b, hbmem, hab⟩, hca⟩ := hc
  have h2 : Char.toUpper a ∈ upperHexChars :=
    byteToHexLower_upper_mem (hb b hbmem) _ (List.mem_map_of_mem _ hab)
  rw [← hca]
  exact h2

theorem map_fst_stepStore (s : Store) (now : Int) (op : Op) :
    ∃ tl, (stepStore s now op).map Prod.fst = s.map Prod.fst ++ tl := by
  cases op with
  | opGenerate plan bytes =>
      cases hg : generate s plan bytes now with
      | error e => exact ⟨[], by simp [stepStore, hg]⟩
      | ok v =>
          obtain ⟨s2, r⟩ := v
          obtain ⟨d, _, hs2⟩ := generate_ok_inv hg
          refine ⟨["OLLY-" ++ tokenHexUpper bytes], ?_⟩
          simp [stepStore, hg, hs2]
  | opVerify t h =>
      cases hv : verify s t h now with
      | error e => exact ⟨[], by simp [stepStore, hv]⟩
      | ok v =>
          obtain ⟨s2, r⟩ := v
          obtain ⟨row, _, _, _, hcase⟩ := verify_ok_inv hv
          rcases hcase with ⟨_, hs2⟩ | ⟨_, hs2⟩
          · exact ⟨[], by simp [stepStore, hv, hs2, map_fst_dbUpdateHwid]⟩
          · exact ⟨[], by simp [stepStore, hv, hs2]⟩
  | opInspect t =>
      cases ha : admin_verify s t now with
      | error e => exact ⟨[], by simp [stepStore, ha]⟩
      | ok v =>
          obtain ⟨s2, r⟩ := v
          have hs2 := admin_verify_ok_inv ha
          exact ⟨[], by simp [stepStore, ha, hs2]⟩
  | opUnbind t =>
      exact ⟨[], by simp [stepStore, admin_unbind, map_fst_dbUpdateHwid]⟩
  | opRevoke t =>
      exact ⟨[], by simp [stepStore, admin_revoke, map_fst_dbRevoke]⟩

theorem stepStore_lookup_mono {s : Store} (now : Int) (op : Op)
    {t : String} {r : TokenRow} (h : dbLookup s t = some r) :
    ∃ r', dbLookup (stepStore s now op) t = some r' ∧
      (r.revoked = true → r'.revoked = true) := by
  cases op with
  | opGenerate plan bytes =>
      cases hg : generate s plan bytes now with
      | error e => exact ⟨r, by simp [stepStore, hg, h], fun x => x⟩
      | ok v =>
          obtain ⟨s2, resp⟩ := v
          obtain ⟨d, _, hs2⟩ := generate_ok_inv hg
          refine ⟨r, ?_, fun x => x⟩
          simp only [stepStore, hg, hs2]
          exact dbLookup_append_left h _
  | opVerify tk hw =>
      cases hv : verify s tk hw now with
      | error e => exact ⟨r, by simp [stepStore, hv, h], fun x => x⟩
      | ok v =>
          obtain ⟨s2, resp⟩ := v
          obtain ⟨row, _, _, _, hcase⟩ := verify_ok_inv hv
          rcases hcase with ⟨_, hs2⟩ | ⟨_, hs2⟩
          · by_cases htk : t = tk
            · subst htk
              refine ⟨r.withHwid (some hw), ?_, fun x => x⟩
              simp [stepStore, hv, hs2, dbLookup_dbUpdateHwid, h]
            · refine ⟨r, ?_, fun x => x⟩
              simp [stepStore, hv, hs2, dbLookup_dbUpdateHwid, htk, h]
          · exact ⟨r, by simp [stepStore, hv, hs2, h], fun x => x⟩
  | opInspect tk =>
      cases ha : admin_verify s tk now with
      | error e => exact ⟨r, by simp [stepStore, ha, h], fun x => x⟩
      | ok v =>
          obtain ⟨s2, resp⟩ := v
          have hs2 := admin_verify_ok_inv ha
          exact ⟨r, by simp [stepStore, ha, hs2, h], fun x => x⟩
  | opUnbind tk =>
      by_cases htk : t = tk
      · subst htk
        refine ⟨r.withHwid none, ?_, fun x => x⟩
        simp [stepStore, admin_unbind, dbLookup_dbUpdateHwid, h]
      · refine ⟨r, ?_, fun x => x⟩
        simp [stepStore, admin_unbind, dbLookup_dbUpdateHwid, htk, h]
  | opRevoke tk =>
      by_cases htk : t = tk
      · subst htk
        refine ⟨r.withRevoked true, ?_, fun _ => rfl⟩
        simp [stepStore, admin_revoke, dbLookup_dbRevoke, h]
      · refine ⟨r, ?_, fun x => x⟩
        simp [stepStore, admin_revoke, dbLookup_dbRevoke, htk, h]

theorem runOps_map_fst (ops : List (Int × Op)) :
    ∀ s : Store,
      ∃ tl, (runOps s ops).map Prod.fst = s.map Prod.fst ++ tl := by
  induction ops with
  | nil => exact fun s => ⟨[], by simp [runOps]⟩
  | cons p rest ih =>
      intro s
      obtain ⟨tl1, h1⟩ := map_fst_stepStore s p.1 p.2
      obtain ⟨tl2, h2⟩ := ih (stepStore s p.1 p.2)
      refine ⟨tl1 ++ tl2, ?_⟩
      show (runOps (stepStore s p.1 p.2) rest).map Prod.fst = _
      rw [h2, h1, List.append_assoc]

theorem runOps_lookup_mono (ops : List (Int × Op)) :
    ∀ (s : Store) (t : String) (r : TokenRow),
      dbLookup s t = some r →
        ∃ r', dbLookup (runOps s ops) t = some r' ∧
          (r.revoked = true → r'.revoked = true) := by
  induction ops with
  | nil => exact fun s t r h => ⟨r, h, fun x => x⟩
  | cons p rest ih =>
      intro s t r h
      obtain ⟨r1, h1, hm1⟩ := stepStore_lookup_mono p.1 p.2 h
      obtain ⟨r2, h2, hm2⟩ := ih _ _ _ h1
      exact ⟨r2, h2, fun x => hm2 (hm1 x)⟩

theorem stepStore_hwid_change {s : Store} {now : Int} {op : Op}
    {t : String} {r r' : TokenRow}
    (h : dbLookup s t = some r)
    (h' : dbLookup (stepStore s now op) t = some r')
    (hne : r'.hwid ≠ r.hwid) :
    (∃ hw, op = Op.opVerify t hw ∧ r.hwid = none ∧ r'.hwid = some hw ∧
      r.revoked = false ∧ expiryTruthy r.expires_at now = false) ∨
    (op = Op.opUnbind t ∧ r'.hwid = none) := by
  cases op with
  | opGenerate plan bytes =>
      exfalso
      cases hg : generate s plan bytes now with
      | error e =>
          simp [stepStore, hg, h] at h'
          exact hne (by rw [← h'])
      | ok v =>
          obtain ⟨s2, resp⟩ := v
          obtain ⟨d, _, hs2⟩ := generate_ok_inv hg
          simp only [stepStore, hg, hs2] at h'
          rw [dbLookup_append_left h _] at h'
          exact hne (by rw [Option.some.inj h'])
  | opVerify tk hw =>
      cases hv : verify s tk hw now with
      | error e =>
          exfalso
          simp [stepStore, hv, h] at h'
          exact hne (by rw [← h'])
      | ok v =>
          obtain ⟨s2, resp⟩ := v
          obtain ⟨row, hrow, hrev, hexp, hcase⟩ := verify_ok_inv hv
          rcases hcase with ⟨hhw, hs2⟩ | ⟨hhw, hs2⟩
          · by_cases htk : t = tk
            · subst htk
              have hrr : row = r := Option.some.inj (hrow.symm.trans h)
              subst hrr
              simp only [stepStore, hv, hs2, dbLookup_dbUpdateHwid,
                if_pos rfl, h, Option.map_some] at h'
              have hr' : r' = row.withHwid (some hw) :=
                (Option.some.inj h').symm
              exact Or.inl ⟨hw, rfl, hhw, by rw [hr']; rfl, hrev, hexp⟩
            · exfalso
              simp only [stepStore, hv, hs2, dbLookup_dbUpdateHwid,
                if_neg htk, h] at h'
              exact hne (by rw [Option.some.inj h'])
          · exfalso
            simp only [stepStore, hv, hs2, h] at h'
            exact hne (by rw [Option.some.inj h'])
  | opInspect tk =>
      exfalso
      cases ha : admin_verify s tk now with
      | error e =>
          simp [stepStore, ha, h] at h'
          exact hne (by rw [← h'])
      | ok v =>
          obtain ⟨s2, resp⟩ := v
          have hs2 := admin_verify_ok_inv ha
          simp only [stepStore, ha, hs2, h] at h'
          exact hne (by rw [Option.some.inj h'])
  | opUnbind tk =>
      by_cases htk : t = tk
      · subst htk
        have : dbLookup (stepStore s now (Op.opUnbind t)) t =
            some (r.withHwid none) := by
          simp [stepStore, admin_unbind, dbLookup_dbUpdateHwid, h]
        rw [this] at h'
        exact Or.inr ⟨rfl, by rw [← Option.some.inj h']; rfl⟩
      · exfalso
        simp only [stepStore, admin_unbind, dbLookup_dbUpdateHwid,
          if_neg htk, h] at h'
        exact hne (by rw [Option.some.inj h'])
  | opRevoke tk =>
      exfalso
      by_cases htk : t = tk
      · subst htk
        simp only [stepStore, admin_revoke, dbLookup_dbRevoke,
          if_pos rfl, h, Option.map_some] at h'
        have : r' = r.withRevoked true := (Option.some.inj h').symm
        rw [this] at hne
        exact hne rfl
      · simp only [stepStore, admin_revoke, dbLookup_dbRevoke,
          if_neg htk, h] at h'
        exact hne (by rw [Option.some.inj h'])

/-- C1: on an existing, non-revoked, non-expired record, `verify` binds
a NULL hwid to the supplied value and persists it; a differing bound
hwid fails with HwidMismatch (403); a matching bound hwid succeeds with
the store left completely unchanged. -/
theorem verify_hwid_binding (s : Store) (t h : String) (now : Int)
    (r : TokenRow)
    (hlook : dbLookup s t = some r)
    (hrev : r.revoked = false)
    (hexp : r.expires_at = none ∨ ∃ e, r.expires_at = some e ∧ now ≤ e) :
    (r.hwid = none →
      verify s t h now =
        Except.ok (dbUpdateHwid s t (some h), ⟨"ok"⟩) ∧
      dbLookup (dbUpdateHwid s t (some h)) t =
        some (r.withHwid (some h))) ∧
    (∀ b, r.hwid = some b → b ≠ h →
      verify s t h now = Except.error ApiError.hwidMismatch ∧
      statusCode ApiError.hwidMismatch = 403) ∧
    (r.hwid = some h → verify s t h now = Except.ok (s, ⟨"ok"⟩)) := by
  have hexpF : expiryTruthy r.expires_at now = false :=
    expiryTruthy_false_of_le hexp
  refine ⟨?_, ?_, ?_⟩
  · intro hh
    constructor
    · simp [verify, hlook, hrev, hexpF, hh]
    · simp [dbLookup_dbUpdateHwid, hlook]
  · intro b hb hbh
    exact ⟨by simp [verify, hlook, hrev, hexpF, hb, hbh], rfl⟩
  · intro hh
    simp [verify, hlook, hrev, hexpF, hh]

theorem verify_hwid_binding_witness :
    verify [("tok1", (⟨none, none, false⟩ : TokenRow))] "tok1" "A" 7 =
      Except.ok
        (dbUpdateHwid [("tok1", ⟨none, none, false⟩)] "tok1" (some "A"),
          ⟨"ok"⟩) :=
  ((verify_hwid_binding [("tok1", ⟨none, none, false⟩)] "tok1" "A" 7
    ⟨none, none, false⟩ rfl rfl (Or.inl rfl)).1 rfl).1

/-- Case analysis of every outcome of `verify`: which error is
returned is decided by the first failing check, in source order. -/
theorem verify_outcome_cases (s : Store) (t h : String) (now : Int) :
    (verify s t h now = Except.error ApiError.invalidToken ↔
      dbLookup s t = none) ∧
    (verify s t h now = Except.error ApiError.tokenRevoked ↔
      ∃ r, dbLookup s t = some r ∧ r.revoked = true) ∧
    (verify s t h now = Except.error ApiError.tokenExpired ↔
      ∃ r, dbLookup s t = some r ∧ r.revoked = false ∧
        expiryTruthy r.expires_at now = true) ∧
    (verify s t h now = Except.error ApiError.hwidMismatch ↔
      ∃ r b, dbLookup s t = some r ∧ r.revoked = false ∧
        expiryTruthy r.expires_at now = false ∧ r.hwid = some b ∧
        b ≠ h) ∧
    (∀ r, dbLookup s t = some r → r.revoked = true →
      expiryTruthy r.expires_at now = true →
      verify s t h now = Except.error ApiError.tokenRevoked) ∧
    (∀ r b, dbLookup s t = some r → r.revoked = false →
      expiryTruthy r.expires_at now = true → r.hwid = some b → b ≠ h →
      verify s t h now = Except.error ApiError.tokenExpired) ∧
    statusCode ApiError.invalidToken = 401 ∧
    statusCode ApiError.tokenRevoked = 403 ∧
    statusCode ApiError.tokenExpired = 403 ∧
    statusCode ApiError.hwidMismatch = 403 := by
  rcases hd : dbLookup s t with _ | r
  · have hv : verify s t h now = Except.error ApiError.invalidToken :=
      by simp [verify, hd]
    refine ⟨by simp [hv, hd], by simp [hv, hd], by simp [hv, hd],
      by simp [hv, hd], ?_, ?_, rfl, rfl, rfl, rfl⟩
    · intro r hr
      exact absurd hr (by simp)
    · intro r b hr
      exact absurd hr (by simp)
  · by_cases hrev : r.revoked = true
    · have hv : verify s t h now = Except.error ApiError.tokenRevoked :=
        by simp [verify, hd, hrev]
      refine ⟨by simp [hv, hd], ?_, ?_, ?_, ?_, ?_, rfl, rfl, rfl, rfl⟩
      · simp [hv, hd]
        exact hrev
      · simp [hv, hd, hrev]
      · simp [hv, hd, hrev]
      · intro r' hr' _ _
        exact hv
      · intro r' b hr' hrev' _ _ _
        rw [← Option.some.inj hr'] at hrev'
        rw [hrev'] at hrev
        exact absurd hrev (by simp)
    · have hrevF : r.revoked = false := by
        revert hrev
        cases r.revoked <;> simp
      by_cases hexp : expiryTruthy r.expires_at now = true
      · have hv :
            verify s t h now = Except.error ApiError.tokenExpired := by
          simp [verify, hd, hrevF, hexp]
        refine ⟨by simp [hv, hd], by simp [hv, hd, hrevF], ?_, ?_, ?_,
          ?_, rfl, rfl, rfl, rfl⟩
        · simp [hv, hd]
          exact ⟨hrevF, hexp⟩
        · simp [hv, hd, hrevF, hexp]
        · intro r' hr' hrev' _
          rw [← Option.some.inj hr'] at hrev'
          rw [hrev'] at hrevF
          exact absurd hrevF (by simp)
        · intro r' b hr' _ _ _ _
          exact hv
      · have hexpF : expiryTruthy r.expires_at now = false := by
          revert hexp
          cases expiryTruthy r.expires_at now <;> simp
        rcases hh : r.hwid with _ | b
        · have hv : verify s t h now =
              Except.ok (dbUpdateHwid s t (some h), ⟨"ok"⟩) := by
            simp [verify, hd, hrevF, hexpF, hh]
          refine ⟨by simp [hv, hd], by simp [hv, hd, hrevF],
            by simp [hv, hd, hrevF, hexpF], by simp [hv, hd, hh], ?_,
            ?_, rfl, rfl, rfl, rfl⟩
          · intro r' hr' hrev' _
            rw [← Option.some.inj hr'] at hrev'
            rw [hrev'] at hrevF
            exact absurd hrevF (by simp)
          · intro r' b hr' _ hexp' _ _
            rw [← Option.some.inj hr'] at hexp'
            rw [hexp'] at hexpF
            exact absurd hexpF (by simp)
        · by_cases hbh : b = h
          · have hv : verify s t h now = Except.ok (s, ⟨"ok"⟩) := by
              simp [verify, hd, hrevF, hexpF, hh, hbh]
            refine ⟨by simp [hv, hd], by simp [hv, hd, hrevF],
              by simp [hv, hd, hrevF, hexpF],
              ?_, ?_, ?_, rfl, rfl, rfl, rfl⟩
            · simp [hv, hd, hrevF, hexpF, hh, hbh]
            · intro r' hr' hrev' _
              rw [← Option.some.inj hr'] at hrev'
              rw [hrev'] at hrevF
              exact absurd hrevF (by simp)
            · intro r' b' hr' _ hexp' _ _
              rw [← Option.some.inj hr'] at hexp'
              rw [hexp'] at hexpF
              exact absurd hexpF (by simp)
          · have hv :
                verify s t h now =
                  Except.error ApiError.hwidMismatch := by
              simp [verify, hd, hrevF, hexpF, hh, hbh]
            refine ⟨by simp [hv, hd], by simp [hv, hd, hrevF],
              by simp [hv, hd, hrevF, hexpF], ?_, ?_, ?_,
              rfl, rfl, rfl, rfl⟩
            · simp [hv, hd, hh]
              exact ⟨hrevF, hexpF, hbh⟩
            · intro r' hr' hrev' _
              rw [← Option.some.inj hr'] at hrev'
              rw [hrev'] at hrevF
              exact absurd hrevF (by simp)
            · intro r' b' hr' _ hexp' _ _
              rw [← Option.some.inj hr'] at hexp'
              rw [hexp'] at hexpF
              exact absurd hexpF (by simp)

/-- C2: the checks of `verify` apply in the order existence (401
invalid token) → revoked (403) → truthy expiry (403) → hwid mismatch
(403), and the first failing check decides the error; in particular a
revoked-and-expired token reports TokenRevoked, and an expired token
with a mismatched hwid reports TokenExpired. -/
theorem verify_check_order (s : Store) (t h : String) (now : Int) :
    (verify s t h now = Except.error ApiError.invalidToken ↔
      dbLookup s t = none) ∧
    (verify s t h now = Except.error ApiError.tokenRevoked ↔
      ∃ r, dbLookup s t = some r ∧ r.revoked = true) ∧
    (verify s t h now = Except.error ApiError.tokenExpired ↔
      ∃ r, dbLookup s t = some r ∧ r.revoked = false ∧
        expiryTruthy r.expires_at now = true) ∧
    (verify s t h now = Except.error ApiError.hwidMismatch ↔
      ∃ r b, dbLookup s t = some r ∧ r.revoked = false ∧
        expiryTruthy r.expires_at now = false ∧ r.hwid = some b ∧
        b ≠ h) ∧
    (∀ r, dbLookup s t = some r → r.revoked = true →
      expiryTruthy r.expires_at now = true →
      verify s t h now = Except.error ApiError.tokenRevoked) ∧
    (∀ r b, dbLookup s t = some r → r.revoked = false →
      expiryTruthy r.expires_at now = true → r.hwid = some b → b ≠ h →
      verify s t h now = Except.error ApiError.tokenExpired) ∧
    statusCode ApiError.invalidToken = 401 ∧
    statusCode ApiError.tokenRevoked = 403 ∧
    statusCode ApiError.tokenExpired = 403 ∧
    statusCode ApiError.hwidMismatch = 403 :=
  verify_outcome_cases s t h now

theorem verify_check_order_witness :
    verify [("tok2", (⟨some "A", some 3, true⟩ : TokenRow))]
      "tok2" "B" 9 = Except.error ApiError.tokenRevoked :=
  (verify_check_order [("tok2", ⟨some "A", some 3, true⟩)]
    "tok2" "B" 9).2.2.2.2.1 ⟨some "A", some 3, true⟩ rfl rfl (by decide)

theorem require_admin_claim_counterexample : ¬ claimAdminAuthExact := by
  intro hc
  obtain ⟨k, hk, _⟩ := (hc none none).mp (by simp [require_admin])
  exact absurd hk (by simp)

/-- C3 (amended): when the ADMIN_KEY environment variable is set to a
secret, admin authentication succeeds exactly when the X-Admin-Key
header is present and equal to it, and a missing or mismatching header
yields 401; when the variable is unset a missing header also passes
(see the unset-environment theorem), so the property does not hold for
every configuration. -/
theorem require_admin_configured (k : String) (header : Option String) :
    (require_admin (some k) header = Except.ok () ↔ header = some k) ∧
    (header ≠ some k →
      require_admin (some k) header =
        Except.error ApiError.unauthorized) ∧
    statusCode ApiError.unauthorized = 401 := by
  refine ⟨?_, ?_, rfl⟩
  · constructor
    · intro h
      by_contra hne
      simp [require_admin, hne] at h
    · intro h
      simp [require_admin, h]
  · intro hne
    simp [require_admin, hne]

theorem require_admin_configured_witness :
    require_admin (some "sekret") none =
      Except.error ApiError.unauthorized :=
  (require_admin_configured "sekret" none).2.1 (by decide)

/-- C4: with the ADMIN_KEY environment variable unset at request time,
a request omitting the X-Admin-Key header passes the admin check, and
the module-level hardcoded fallback "olly6969" is not consulted:
presenting it (or any other header value) is rejected with 401. -/
theorem require_admin_unset_env :
    require_admin none none = Except.ok () ∧
    require_admin none (some ADMIN_KEY_DEFAULT) =
      Except.error ApiError.unauthorized ∧
    (∀ h : String,
      require_admin none (some h) =
        Except.error ApiError.unauthorized) ∧
    statusCode ApiError.unauthorized = 401 := by
  refine ⟨by simp [require_admin], by simp [require_admin], ?_, rfl⟩
  intro h
  simp [require_admin]

/-- C5: generating with a valid plan appends exactly one new record
whose token is "OLLY-" followed by 24 uppercase hexadecimal
characters, with revoked false, hwid NULL and expiry now + the plan's
tabulated duration (NULL for infinite); the response carries the token
string, the lowercased plan and the expiry; the plan table matches the
specified values. -/
theorem generate_valid_plan (s : Store) (plan : String)
    (bytes : List Nat) (now : Int) (d : Option Int)
    (hplan : lookupPlan (strLower plan) = some d)
    (hlen : bytes.length = 12)
    (hbytes : ∀ b ∈ bytes, b < 256)
    (hfresh : dbLookup s ("OLLY-" ++ tokenHexUpper bytes) = none) :
    generate s plan bytes now =
      Except.ok
        (s ++ [("OLLY-" ++ tokenHexUpper bytes,
          ⟨none, d.map (fun x => now + x), false⟩)],
         ⟨"OLLY-" ++ tokenHexUpper bytes, strLower plan,
          d.map (fun x => now + x)⟩) ∧
    (tokenHexUpper bytes).length = 24 ∧
    (∀ c ∈ (tokenHexUpper bytes).data, c ∈ upperHexChars) ∧
    lookupPlan "1d" = some (some 86400) ∧
    lookupPlan "3d" = some (some 259200) ∧
    lookupPlan "1w" = some (some 604800) ∧
    lookupPlan "2w" = some (some 1209600) ∧
    lookupPlan "3w" = some (some 1814400) ∧
    lookupPlan "6w" = some (some 3628800) ∧
    lookupPlan "1m" = some (some 2592000) ∧
    lookupPlan "2m" = some (some 5184000) ∧
    lookupPlan "3m" = some (some 7776000) ∧
    lookupPlan "6m" = some (some 15552000) ∧
    lookupPlan "9m" = some (some 23328000) ∧
    lookupPlan "1y" = some (some 31536000) ∧
    lookupPlan "2y" = some (some 63072000) ∧
    lookupPlan "infinite" = some none := by
  refine ⟨?_, ?_, mem_tokenHexUpper hbytes, by decide⟩
  · simp [generate, hplan, dbInsert, hfresh]
  · rw [length_tokenHexUpper, hlen]

theorem generate_valid_plan_witness :
    lookupPlan (strLower "1d") = some (some 86400) ∧
    generate [] "1d" [0, 0, 0, 0, 0, 0, 0, 0, 0, 0, 0, 0] 100 =
      Except.ok
        ([("OLLY-000000000000000000000000",
            ⟨none, some 86500, false⟩)],
         ⟨"OLLY-000000000000000000000000", "1d", some 86500⟩) := by
  refine ⟨by decide, ?_⟩
  have h := (generate_valid_plan [] "1d"
    [0, 0, 0, 0, 0, 0, 0, 0, 0, 0, 0, 0] 100 (some 86400)
    (by decide) (by decide) (by decide) (by decide)).1
  rw [h]
  decide

theorem verify_expiry_claim_counterexample : ¬ claimExpiryExact := by
  intro hc
  have h := (hc [("tok3", ⟨none, some 0, false⟩)] "tok3" "A" 5
    ⟨none, some 0, false⟩ rfl rfl).mpr ⟨0, rfl, by decide⟩
  exact absurd h (by decide)

/-- C6 (amended): on an existing non-revoked record, `verify` fails
with TokenExpired (403) exactly when `expires_at` is non-null, nonzero
and strictly in the past; a NULL ― or, by Python truthiness, a 0 ―
`expires_at` never fails with TokenExpired. -/
theorem verify_expiry_amended (s : Store) (t h : String) (now : Int)
    (r : TokenRow) (hlook : dbLookup s t = some r)
    (hrev : r.revoked = false) :
    (verify s t h now = Except.error ApiError.tokenExpired ↔
      ∃ e, r.expires_at = some e ∧ e ≠ 0 ∧ now > e) ∧
    statusCode ApiError.tokenExpired = 403 := by
  refine ⟨?_, rfl⟩
  obtain ⟨_, _, i3, _⟩ := verify_outcome_cases s t h now
  rw [i3]
  constructor
  · rintro ⟨r', hr', _, hexp⟩
    rw [hlook] at hr'
    rw [← Option.some.inj hr'] at hexp
    exact (expiryTruthy_true_iff _ _).mp hexp
  · intro hex
    exact ⟨r, hlook, hrev, (expiryTruthy_true_iff _ _).mpr hex⟩

theorem verify_expiry_amended_witness :
    verify [("tok4", (⟨none, some 2, false⟩ : TokenRow))] "tok4" "A" 5 =
      Except.error ApiError.tokenExpired :=
  ((verify_expiry_amended [("tok4", ⟨none, some 2, false⟩)] "tok4" "A" 5
    ⟨none, some 2, false⟩ rfl rfl).1).mpr ⟨2, rfl, by decide, by decide⟩

/-- C7: the plan is matched case-insensitively (lowercased) against
the fixed table, InvalidPlan (400) is returned exactly when the
lowercased plan is not a key, the error detail enumerates every valid
plan key, and in that case the store is unchanged (no record is
created). -/
theorem generate_invalid_plan (s : Store) (plan : String)
    (bytes : List Nat) (now : Int) :
    (generate s plan bytes now = Except.error ApiError.invalidPlan ↔
      lookupPlan (strLower plan) = none) ∧
    (∀ k ∈ PLAN_DURATIONS.map Prod.fst,
      strContainsSub (errorDetail ApiError.invalidPlan) k = true) ∧
    statusCode ApiError.invalidPlan = 400 ∧
    (lookupPlan (strLower plan) = none →
      stepStore s now (Op.opGenerate plan bytes) = s) := by
  refine ⟨?_, by decide, rfl,
    fun hp => by simp [stepStore, generate, hp]⟩
  rcases hp : lookupPlan (strLower plan) with _ | d
  · simp [generate, hp]
  · constructor
    · intro hcontra
      simp only [generate, hp] at hcontra
      split at hcontra
      · exact absurd hcontra (by simp)
      · exact absurd hcontra (by simp)
    · intro hcontra
      exact absurd hcontra (by simp)

theorem generate_invalid_plan_witness :
    generate [] "99x" [] 0 = Except.error ApiError.invalidPlan ∧
    stepStore [] 0 (Op.opGenerate "99x" []) = [] := by
  constructor
  · exact (generate_invalid_plan [] "99x" [] 0).1.mpr (by decide)
  · exact (generate_invalid_plan [] "99x" [] 0).2.2.2 (by decide)

theorem admin_inspect_claim_counterexample : ¬ claimInspectExact := by
  intro hc
  have h := hc.2 [("tok5", ⟨none, some 0, false⟩)] "tok5" 5
    ⟨none, some 0, false⟩ rfl
  exact absurd h (by decide)

/-- C8 (amended): AdminInspect fails with TokenNotFound (404) when the
token is absent; otherwise it returns the token string, hwid, revoked
flag and expires_at of the record without modifying the store, with
seconds_remaining equal to max 0 (expires_at - now) when expires_at is
non-null and nonzero, and null when expires_at is null ― or, by Python
truthiness, 0. -/
theorem admin_inspect_amended (s : Store) (t : String) (now : Int) :
    (dbLookup s t = none →
      admin_verify s t now = Except.error ApiError.tokenNotFound ∧
      statusCode ApiError.tokenNotFound = 404) ∧
    (∀ r, dbLookup s t = some r →
      admin_verify s t now = Except.ok (s,
        ⟨t, r.hwid, r.revoked, r.expires_at,
          match r.expires_at with
          | none => none
          | some e =>
              if e = 0 then none else some (max 0 (e - now))⟩)) := by
  constructor
  · intro hd
    exact ⟨by simp [admin_verify, hd], rfl⟩
  · intro r hd
    rcases he : r.expires_at with _ | e
    · simp [admin_verify, hd, he]
    · by_cases h0 : e = 0
      · simp [admin_verify, hd, he, h0]
      · simp [admin_verify, hd, he, h0]

theorem admin_inspect_amended_witness :
    admin_verify [("tok6", (⟨some "H", some 10, true⟩ : TokenRow))]
      "tok6" 3 =
      Except.ok ([("tok6", ⟨some "H", some 10, true⟩)],
        ⟨"tok6", some "H", true, some 10, some 7⟩) := by
  have h := (admin_inspect_amended
    [("tok6", ⟨some "H", some 10, true⟩)] "tok6" 3).2
    ⟨some "H", some 10, true⟩ rfl
  rw [h]
  decide

/-- C9: admin unbind and revoke are unconditional and idempotent: for
every store and token string they succeed (no error, whether or not a
record exists), unbind sets the record's hwid to NULL and revoke sets
its revoked flag, and repeating either call yields the same state and
the same response as the first call. -/
theorem admin_ops_idempotent (s : Store) (t : String) :
    (admin_unbind s t).isOk = true ∧
    (admin_revoke s t).isOk = true ∧
    (∀ s1 r1, admin_unbind s t = Except.ok (s1, r1) →
      admin_unbind s1 t = Except.ok (s1, r1) ∧
      dbLookup s1 t =
        (dbLookup s t).map (fun row => row.withHwid none)) ∧
    (∀ s1 r1, admin_revoke s t = Except.ok (s1, r1) →
      admin_revoke s1 t = Except.ok (s1, r1) ∧
      dbLookup s1 t =
        (dbLookup s t).map (fun row => row.withRevoked true)) := by
  refine ⟨rfl, rfl, ?_, ?_⟩
  · intro s1 r1 hu
    simp only [admin_unbind, Except.ok.injEq, Prod.mk.injEq] at hu
    obtain ⟨hs1, hr1⟩ := hu
    constructor
    · simp [admin_unbind, ← hs1, ← hr1, dbUpdateHwid_idem]
    · rw [← hs1, dbLookup_dbUpdateHwid]
      simp
  · intro s1 r1 hu
    simp only [admin_revoke, Except.ok.injEq, Prod.mk.injEq] at hu
    obtain ⟨hs1, hr1⟩ := hu
    constructor
    · simp [admin_revoke, ← hs1, ← hr1, dbRevoke_idem]
    · rw [← hs1, dbLookup_dbRevoke]
      simp

theorem admin_ops_idempotent_witness :
    admin_unbind
      (dbUpdateHwid [("tok7", (⟨some "X", none, false⟩ : TokenRow))]
        "tok7" none) "tok7" =
      Except.ok
        (dbUpdateHwid [("tok7", ⟨some "X", none, false⟩)] "tok7" none,
          ⟨"ok"⟩) :=
  ((admin_ops_idempotent [("tok7", ⟨some "X", none, false⟩)]
    "tok7").2.2.1
    (dbUpdateHwid [("tok7", ⟨some "X", none, false⟩)] "tok7" none)
    ⟨"ok"⟩ rfl).1

theorem state_invariants_claim_counterexample :
    ¬ claimStateInvariants := by
  intro hc
  obtain ⟨_, _, hw⟩ := hc
  have h := hw [("tok8", ⟨none, some 0, false⟩)] 1
    (Op.opVerify "tok8" "A") "tok8" ⟨none, some 0, false⟩
    ⟨some "A", some 0, false⟩ rfl (by decide) (by decide)
  rcases h with ⟨hwid, _, _, _, _, hnexp⟩ | ⟨heq, _⟩
  · exact hnexp ⟨0, rfl, by decide⟩
  · exact absurd heq (by simp)

/-- C10 (amended): across every sequence of exposed operations the
token keys are only ever appended to (no record is deleted, no key
rewritten), the revoked flag never goes from true back to false, and a
record's hwid changes only through `verify`'s first-use binding (NULL
to the supplied value, on an existing, non-revoked record that the
code's truthy expiry check ― which treats a 0 expiry like NULL ― does
not reject) or through admin unbind (to NULL). -/
theorem state_invariants_amended :
    (∀ (s : Store) (ops : List (Int × Op)),
      ∃ tl, (runOps s ops).map Prod.fst = s.map Prod.fst ++ tl) ∧
    (∀ (s : Store) (ops : List (Int × Op)) (t : String) (r : TokenRow),
      dbLookup s t = some r →
        ∃ r', dbLookup (runOps s ops) t = some r' ∧
          (r.revoked = true → r'.revoked = true)) ∧
    (∀ (s : Store) (now : Int) (op : Op) (t : String) (r r' : TokenRow),
      dbLookup s t = some r →
        dbLookup (stepStore s now op) t = some r' →
          r'.hwid ≠ r.hwid →
            (∃ hw, op = Op.opVerify t hw ∧ r.hwid = none ∧
              r'.hwid = some hw ∧ r.revoked = false ∧
              expiryTruthy r.expires_at now = false) ∨
            (op = Op.opUnbind t ∧ r'.hwid = none)) :=
  ⟨fun s ops => runOps_map_fst ops s,
    fun s ops t r h => runOps_lookup_mono ops s t r h,
    fun _ _ _ _ _ _ h h' hne => stepStore_hwid_change h h' hne⟩

theorem state_invariants_amended_witness :
    ∃ r', dbLookup (runOps [("tok9", (⟨none, none, true⟩ : TokenRow))]
      [(5, Op.opVerify "tok9" "A")]) "tok9" = some r' ∧
      r'.revoked = true := by
  obtain ⟨r', h1, h2⟩ := (state_invariants_amended).2.1
    [("tok9", ⟨none, none, true⟩)] [(5, Op.opVerify "tok9" "A")] "tok9"
    ⟨none, none, true⟩ rfl
  exact ⟨r', h1, h2 rfl⟩
